import Mathlib

/-!
Verification of the BMRS imbalance daily-report engine.

The Python source is shallowly embedded: a settlement record is a structure
holding the seven fields of interest plus the derived columns the analytics
functions write into the table (modelled as `Option` fields, `none` until the
corresponding column assignment runs).  Timestamps are modelled as integers
counting minutes (UTC); prices and volumes as rationals.  DataFrame-returning
functions that can raise become `Except String`; functions that write columns
into their argument return the updated table alongside their result.
The network is modelled as oracle parameters: each potential fetch outcome
(`Option DaySeries`, `none` being the absence signal) is passed in, and the
reconciler reports whether the neighbour fetches were issued.
-/

/-- One half-hour settlement record.  The first seven fields are the columns
of interest kept by the normalizer; the last three model the derived columns
(`ImbalanceCost`, `Hour`, `absNetImbalanceVolume`) that the analytics
functions assign into the table, absent (`none`) until written. -/
structure SettlementRecord where
  settlementDate : ℤ
  settlementPeriod : ℤ
  startTime : ℤ
  createdDateTime : ℤ
  systemSellPrice : ℚ
  systemBuyPrice : ℚ
  netImbalanceVolume : ℚ
  imbalanceCost : Option ℚ := none
  hourCol : Option ℕ := none
  absNetImbalanceVolume : Option ℚ := none
deriving DecidableEq

/-- A DataFrame of settlement records, in row order. -/
abbrev DaySeries := List SettlementRecord

/-- Default record (all-zero), used as the out-of-range default for `getD`. -/
def dRec : SettlementRecord :=
  { settlementDate := 0, settlementPeriod := 0, startTime := 0,
    createdDateTime := 0, systemSellPrice := 0, systemBuyPrice := 0,
    netImbalanceVolume := 0 }

instance : Inhabited SettlementRecord := ⟨dRec⟩

/-- Embeds `Timestamp.hour` on a UTC instant counted in minutes: the UTC
hour-of-day, `(t mod 1440) / 60`. -/
def hourOf (t : ℤ) : ℕ := ((t % 1440) / 60).toNat

/-- Embeds `pd.date_range(start, end, freq)`: the instants `start + k*step` for
`k = 0 .. (end - start)/step`, i.e. all grid points not past `stop`. -/
def date_range (start stop step : ℤ) : List ℤ :=
  (List.range (((stop - start) / step).toNat + 1)).map (fun k : ℕ => start + step * (k : ℤ))

/-- Embeds `generate_expected_start_times`: the 48-slot half-hour grid for the date
whose UTC midnight is `midnight` (minutes).  The source builds
`pd.date_range(date 00:00, date 23:30, freq 0.5h, tz UTC)`; 23:30 is minute
1410 of the day. -/
def generate_expected_start_times (midnight : ℤ) : List ℤ :=
  date_range midnight (midnight + 1410) 30

/-! ## Record Normalizer (`transform_data_from_api`)

A raw batch is column-oriented: a list of (column name, cell list) pairs.
Cells are untyped wire values; `pd.to_datetime` turns a string cell into an
instant via a parse function passed as a parameter. -/

/-- A wire cell: text, number, or an already-parsed instant. -/
inductive CellValue where
  | str : String → CellValue
  | num : ℚ → CellValue
  | dt : ℤ → CellValue
deriving DecidableEq

/-- A raw DataFrame: named columns in order, each a list of cells. -/
abbrev RawDF := List (String × List CellValue)

def columns_of_interest : List String :=
  ["settlementDate", "settlementPeriod", "startTime", "createdDateTime",
   "systemSellPrice", "systemBuyPrice", "netImbalanceVolume"]

def date_columns : List String := ["settlementDate", "startTime", "createdDateTime"]

/-- Column lookup: `df[c]` for a single label, `none` when the label is
absent (pandas raises `KeyError`). -/
def lookupCol (df : RawDF) (c : String) : Option (List CellValue) :=
  (df.find? (fun p => p.1 == c)).map (fun p => p.2)

/-- Embeds `df[columns_of_interest]`: project onto the listed columns in order;
any absent label makes the whole selection fail (pandas `KeyError`). -/
def select_columns (df : RawDF) : List String → Option RawDF
  | [] => some []
  | c :: cs =>
    match lookupCol df c with
    | none => none
    | some vs =>
      match select_columns df cs with
      | none => none
      | some rest => some ((c, vs) :: rest)

/-- Embeds `pd.to_datetime` on one cell: parse a string into an instant, leave
other cells as they are. -/
def to_datetime (parse : String → ℤ) : CellValue → CellValue
  | .str s => .dt (parse s)
  | v => v

/-- Embeds `transform_date_columns_to_datetime`: apply `pd.to_datetime` to the
three date columns. -/
def transform_date_columns_to_datetime (parse : String → ℤ) (df : RawDF) : RawDF :=
  df.map (fun p => if p.1 ∈ date_columns then (p.1, p.2.map (to_datetime parse)) else p)

/-- Embeds `transform_data_from_api`: project to the seven columns of interest
(raising on a missing column), then parse the date columns. -/
def transform_data_from_api (parse : String → ℤ) (df : RawDF) : Except String RawDF :=
  match select_columns df columns_of_interest with
  | none => Except.error "KeyError"
  | some filtered => Except.ok (transform_date_columns_to_datetime parse filtered)

/-! ## Reconciler (`switch_timezone_to_utc`, `add_missing_settlement_periods`)

The two neighbour fetches (`fetch_and_transform_data_for_date_string` for
D−1 and D+1) are modelled as oracle parameters of type `Option DaySeries`
(`none` = the fetch returned `None`).  `switch_timezone_to_utc` additionally
reports whether the neighbour fetches were issued at all (they happen inside
`add_missing_settlement_periods` only). -/

/-- Embeds `add_missing_settlement_periods`, given the two neighbour-fetch
outcomes.  The source subscripts `yesterday_df` without a `None` check
(`yesterday_df[yesterday_df.startTime.isin(...)]`), so a failed D−1 fetch
raises `TypeError`; a failed D+1 fetch is checked (`is not None`). -/
def add_missing_settlement_periods (yesterday_df : Option DaySeries)
    (settlement_date_df : DaySeries) (missing_settlement_times : List ℤ)
    (tomorrow_df : Option DaySeries) : Except String DaySeries :=
  match yesterday_df with
  | none => Except.error "TypeError: NoneType object is not subscriptable"
  | some ydf =>
    let misplaced_periods_yesterday :=
      ydf.filter (fun r => r.startTime ∈ missing_settlement_times)
    match tomorrow_df with
    | some tdf =>
      let misplaced_periods_tomorrow :=
        tdf.filter (fun r => r.startTime ∈ missing_settlement_times)
      if 0 < misplaced_periods_yesterday.length then
        Except.ok (misplaced_periods_yesterday ++ settlement_date_df ++ misplaced_periods_tomorrow)
      else
        Except.ok (settlement_date_df ++ misplaced_periods_tomorrow)
    | none =>
      if 0 < misplaced_periods_yesterday.length then
        Except.ok (misplaced_periods_yesterday ++ settlement_date_df)
      else
        Except.ok settlement_date_df

/-- The `filtered_data` value of `switch_timezone_to_utc`:
`df[df.startTime.isin(expected_start_times)]`. -/
def filtered_data (midnight : ℤ) (df : DaySeries) : DaySeries :=
  df.filter (fun r => r.startTime ∈ generate_expected_start_times midnight)

/-- The `missing_times` value of `switch_timezone_to_utc`:
`expected_start_times[~expected_start_times.isin(df.startTime)]`. -/
def missing_times (midnight : ℤ) (df : DaySeries) : List ℤ :=
  (generate_expected_start_times midnight).filter
    (fun t => ¬ t ∈ df.map (fun r => r.startTime))

/-- Embeds `switch_timezone_to_utc` for the date whose UTC midnight is `midnight`.
Returns the reconciled series (or the propagated exception) together with a
flag recording whether the neighbour fetches were issued. -/
def switch_timezone_to_utc (midnight : ℤ) (df : DaySeries)
    (yesterday_fetch tomorrow_fetch : Option DaySeries) :
    Except String DaySeries × Bool :=
  if 0 < (missing_times midnight df).length then
    (add_missing_settlement_periods yesterday_fetch (filtered_data midnight df)
      (missing_times midnight df) tomorrow_fetch, true)
  else
    (Except.ok (filtered_data midnight df), false)

/-! ## Cost & Analytics Engine -/

/-- First-maximum fold underlying pandas `idxmax` over a keyed series:
keep the current best, replace it only on a strictly larger value. -/
def pickMax (best : ℕ × ℚ) (l : List (ℕ × ℚ)) : ℕ × ℚ :=
  l.foldl (fun b q => if b.2 < q.2 then q else b) best

/-- pandas `Series.max` over a nonempty value list. -/
def maxVal (a : ℚ) (l : List ℚ) : ℚ := l.foldl max a

/-- pandas `(series.idxmax(), series.max())` on a keyed series: `idxmax`
returns the first key attaining the maximum value and raises `ValueError`
on an empty series; `max` returns the maximum value. -/
def idxmax_max : List (ℕ × ℚ) → Except String (ℕ × ℚ)
  | [] => Except.error "ValueError: attempt to get argmax of an empty sequence"
  | p :: rest => Except.ok ((pickMax p rest).1, maxVal p.2 (rest.map (fun q => q.2)))

/-- The summed absolute imbalance volume of UTC hour `h` in `df`
(the groupby-sum cell for key `h`). -/
def hourSum (df : DaySeries) (h : ℕ) : ℚ :=
  ((df.filter (fun r => hourOf r.startTime == h)).map
    (fun r => |r.netImbalanceVolume|)).sum

/-- The sorted distinct groupby keys of `df.groupby(Hour)`: the UTC hours
present in `df`, ascending (hours are always < 24). -/
def hourKeys (df : DaySeries) : List ℕ :=
  (List.range 24).filter (fun h => h ∈ df.map (fun r => hourOf r.startTime))

/-- Embeds `generate_max_net_abs_imbalance_volume_hour`: writes the `Hour` and
`absNetImbalanceVolume` columns into the table, groups by hour, sums the
absolute volumes, and returns `(idxmax, max)` of the grouped series
(`idxmax` raises `ValueError` on an empty frame).  The updated table is
returned alongside, modelling the in-place column assignments. -/
def generate_max_net_abs_imbalance_volume_hour (df : DaySeries) :
    Except String (ℕ × ℚ) × DaySeries :=
  (idxmax_max ((hourKeys df).map (fun h => (h, hourSum df h))),
   df.map (fun r =>
     { r with hourCol := some (hourOf r.startTime),
              absNetImbalanceVolume := some |r.netImbalanceVolume| }))

/-- The module global scope: no variable named `df` is defined there,
so the body of `generate_max_abs_imbalance_volume_period_hour` (which
takes no parameter) finds nothing to read. -/
def module_global_df : Option DaySeries := none

/-- Embeds `generate_max_abs_imbalance_volume_period_hour`: the source defines it
with no `df` parameter (though its docstring documents one), so `df` is
resolved in the enclosing global scope — `NameError` when absent.  When a
global `df` exists the body computes `|netImbalanceVolume|`, resets the
index to `0..n-1`, takes `idxmax` (first row attaining the maximum), and
returns the hour of the `startTime` of that row with the maximum value. -/
def generate_max_abs_imbalance_volume_period_hour
    (global_df : Option DaySeries) : Except String (ℕ × ℚ) :=
  match global_df with
  | none => Except.error "NameError: name df is not defined"
  | some df =>
    let vals := df.map (fun r => |r.netImbalanceVolume|)
    match idxmax_max ((List.range df.length).map (fun i => (i, vals.getD i 0))) with
    | Except.error e => Except.error e
    | Except.ok iv => Except.ok (hourOf (df.getD iv.1 dRec).startTime, iv.2)

/-- Embeds `calculate_total_imbalance_cost`: writes the `ImbalanceCost` column
(`np.where(niv > 0, niv*sell, niv*buy)`) into the table and sums it.  The
updated table is returned alongside, modelling the in-place assignment. -/
def calculate_total_imbalance_cost (df : DaySeries) : ℚ × DaySeries :=
  let df1 := df.map (fun r =>
    { r with imbalanceCost := some (if 0 < r.netImbalanceVolume
        then r.netImbalanceVolume * r.systemSellPrice
        else r.netImbalanceVolume * r.systemBuyPrice) })
  (((df1.map (fun r => r.imbalanceCost.getD 0))).sum, df1)

/-- Modelled from the spec: the per-period imbalance cost, in the words
of the spec — sell price when the net imbalance volume is positive, buy price
otherwise. -/
def spec_per_period_cost (r : SettlementRecord) : ℚ :=
  if 0 < r.netImbalanceVolume then r.netImbalanceVolume * r.systemSellPrice
  else r.netImbalanceVolume * r.systemBuyPrice

/-- Projection onto the seven columns of interest (the record content the
spec says the analytics must not disturb). -/
def baseView (r : SettlementRecord) : ℤ × ℤ × ℤ × ℤ × ℚ × ℚ × ℚ :=
  (r.settlementDate, r.settlementPeriod, r.startTime, r.createdDateTime,
   r.systemSellPrice, r.systemBuyPrice, r.netImbalanceVolume)

/-! ## Concrete inputs used by the witnesses and counterexamples -/

/-- A record with the given start time, volume and prices (remaining
fields zero). -/
def mkRec (t : ℤ) (niv sell buy : ℚ) : SettlementRecord :=
  { dRec with startTime := t, netImbalanceVolume := niv,
              systemSellPrice := sell, systemBuyPrice := buy }

/-- The worked total-cost example: volumes `[10, -5, 15]`, sell prices
`[100, 200, 150]`, buy prices `[80, 180, 120]`. -/
def c4_example : DaySeries :=
  [mkRec 0 10 100 80, mkRec 30 (-5) 200 180, mkRec 60 15 150 120]

/-- The worked peak-summed-hour example: periods at 00:00, 01:00, 01:30,
02:00 with volumes `[5, -3, 4, 2]`. -/
def c8_example : DaySeries :=
  [mkRec 0 5 0 0, mkRec 60 (-3) 0 0, mkRec 90 4 0 0, mkRec 120 2 0 0]

/-- A complete day for the date with UTC midnight `m`: one record per
expected grid instant. -/
def full_day (m : ℤ) : DaySeries :=
  (generate_expected_start_times m).map (fun t => { dRec with startTime := t })

/-- The start times contributed by a possibly-absent fetched series. -/
def seriesStarts : Option DaySeries → List ℤ
  | none => []
  | some l => l.map (fun r => r.startTime)

/-- The test batch with `createdDateTime` absent. -/
def bad_batch : RawDF :=
  [("settlementDate", [CellValue.str "2024-10-14"]),
   ("settlementPeriod", [CellValue.num 1]),
   ("startTime", [CellValue.str "2024-10-14T23:00:00Z"]),
   ("systemSellPrice", [CellValue.num 50]),
   ("systemBuyPrice", [CellValue.num 45]),
   ("netImbalanceVolume", [CellValue.num 10])]

/-- The test batch with all seven columns plus an extra one. -/
def good_batch : RawDF :=
  [("settlementDate", [CellValue.str "2024-10-14"]),
   ("settlementPeriod", [CellValue.num 1]),
   ("startTime", [CellValue.str "2024-10-14T23:00:00Z"]),
   ("createdDateTime", [CellValue.str "2024-10-14T00:00:00Z"]),
   ("systemSellPrice", [CellValue.num 50]),
   ("systemBuyPrice", [CellValue.num 45]),
   ("netImbalanceVolume", [CellValue.num 10]),
   ("unneededColumn", [CellValue.num 10])]

/-! ## Helper lemmas -/

theorem generate_expected_start_times_eq (m : ℤ) :
    generate_expected_start_times m
      = (List.range 48).map (fun k : ℕ => m + 30 * (k : ℤ)) := by
  have h : ((m + 1410 - m) / 30).toNat + 1 = 48 := by
    rw [add_sub_cancel_left]
    rfl
  rw [generate_expected_start_times, date_range, h]

theorem pickMax_spec (l : List (ℕ × ℚ)) : ∀ best : ℕ × ℚ,
    pickMax best l ∈ best :: l ∧
    (∀ q ∈ best :: l, q.2 ≤ (pickMax best l).2) ∧
    ((best :: l).Pairwise (fun p q => p.1 < q.1) →
      ∀ q ∈ best :: l, q.2 = (pickMax best l).2 → (pickMax best l).1 ≤ q.1) := by
  induction l with
  | nil =>
    intro best
    refine ⟨List.mem_singleton.mpr rfl, ?_, ?_⟩
    · intro q hq
      rw [List.mem_singleton] at hq
      subst hq
      exact le_refl _
    · intro _ q hq _
      rw [List.mem_singleton] at hq
      subst hq
      exact le_refl _
  | cons a l ih =>
    intro best
    have hstep : pickMax best (a :: l) = pickMax (if best.2 < a.2 then a else best) l := rfl
    by_cases h : best.2 < a.2
    · rw [hstep, if_pos h]
      obtain ⟨hmem, hle, htie⟩ := ih a
      refine ⟨List.mem_cons_of_mem best hmem, ?_, ?_⟩
      · intro q hq
        rcases List.mem_cons.mp hq with hq | hq
        · rw [hq]
          exact le_trans (le_of_lt h) (hle a (List.mem_cons_self a l))
        · exact hle q hq
      · intro hp q hq hq2
        have hp2 : (a :: l).Pairwise (fun p q => p.1 < q.1) := hp.of_cons
        rcases List.mem_cons.mp hq with hq | hq
        · exfalso
          have hlt : best.2 < (pickMax a l).2 :=
            lt_of_lt_of_le h (hle a (List.mem_cons_self a l))
          rw [hq] at hq2
          rw [hq2] at hlt
          exact lt_irrefl _ hlt
        · exact htie hp2 q hq hq2
    · rw [hstep, if_neg h]
      push_neg at h
      obtain ⟨hmem, hle, htie⟩ := ih best
      refine ⟨?_, ?_, ?_⟩
      · rcases List.mem_cons.mp hmem with hm | hm
        · rw [hm]
          exact List.mem_cons_self _ _
        · exact List.mem_cons_of_mem best (List.mem_cons_of_mem a hm)
      · intro q hq
        rcases List.mem_cons.mp hq with hq | hq
        · rw [hq]
          exact hle best (List.mem_cons_self best l)
        rcases List.mem_cons.mp hq with hq | hq
        · rw [hq]
          exact le_trans h (hle best (List.mem_cons_self best l))
        · exact hle q (List.mem_cons_of_mem best hq)
      · intro hp q hq hq2
        have hsub : (best :: l).Sublist (best :: a :: l) :=
          List.Sublist.cons₂ best (List.sublist_cons_self a l)
        have hp2 : (best :: l).Pairwise (fun p q => p.1 < q.1) := hp.sublist hsub
        have hba : best.1 < a.1 :=
          (List.pairwise_cons.mp hp).1 a (List.mem_cons_self a l)
        rcases List.mem_cons.mp hq with hq | hq
        · rw [hq] at hq2 ⊢
          exact htie hp2 best (List.mem_cons_self best l) hq2
        rcases List.mem_cons.mp hq with hq | hq
        · rw [hq] at hq2 ⊢
          rcases List.mem_cons.mp hmem with hm | hm
          · rw [hm]
            exact le_of_lt hba
          · have h1 : best.2 ≤ (pickMax best l).2 := hle best (List.mem_cons_self best l)
            have h3 : best.2 = (pickMax best l).2 := le_antisymm h1 (hq2 ▸ h)
            have h4 := htie hp2 best (List.mem_cons_self best l) h3
            exact le_of_lt (lt_of_le_of_lt h4 hba)
        · exact htie hp2 q (List.mem_cons_of_mem best hq) hq2

theorem pickMax_snd (l : List (ℕ × ℚ)) : ∀ best : ℕ × ℚ,
    (pickMax best l).2 = maxVal best.2 (l.map (fun q => q.2)) := by
  induction l with
  | nil =>
    intro best
    rfl
  | cons a l ih =>
    intro best
    have h1 : pickMax best (a :: l) = pickMax (if best.2 < a.2 then a else best) l := rfl
    have h2 : maxVal best.2 ((a :: l).map (fun q => q.2))
        = maxVal (max best.2 a.2) (l.map (fun q => q.2)) := rfl
    rw [h1, h2, ih]
    congr 1
    by_cases h : best.2 < a.2
    · rw [if_pos h]
      exact (max_eq_right (le_of_lt h)).symm
    · rw [if_neg h]
      push_neg at h
      exact (max_eq_left h).symm

/-- Spec of `idxmax` and `max` on a nonempty series with strictly increasing keys:
the returned key is a key of the series, its value is the maximum, and it
is the first (least) key attaining it. -/
theorem idxmax_max_spec (l : List (ℕ × ℚ)) (hne : l ≠ [])
    (hp : l.Pairwise (fun p q => p.1 < q.1)) :
    ∃ k v, idxmax_max l = Except.ok (k, v) ∧ (k, v) ∈ l ∧
      (∀ q ∈ l, q.2 ≤ v) ∧ (∀ q ∈ l, q.2 = v → k ≤ q.1) := by
  cases l with
  | nil => exact absurd rfl hne
  | cons p rest =>
    obtain ⟨hmem, hle, htie⟩ := pickMax_spec rest p
    have hv : (pickMax p rest).2 = maxVal p.2 (rest.map (fun q => q.2)) :=
      pickMax_snd rest p
    refine ⟨(pickMax p rest).1, maxVal p.2 (rest.map (fun q : ℕ × ℚ => q.2)), rfl, ?_, ?_, ?_⟩
    · rw [← hv]
      simpa using hmem
    · intro q hq
      rw [← hv]
      exact hle q hq
    · intro q hq hq2
      rw [← hv] at hq2
      exact htie hp q hq hq2

theorem hourOf_lt_24 (t : ℤ) : hourOf t < 24 := by
  unfold hourOf
  omega

theorem mem_hourKeys {df : DaySeries} {h : ℕ} :
    h ∈ hourKeys df ↔ h ∈ df.map (fun r => hourOf r.startTime) := by
  constructor
  · intro hh
    have hm := List.mem_filter.mp hh
    simpa using hm.2
  · intro hh
    refine List.mem_filter.mpr ⟨List.mem_range.mpr ?_, by simpa using hh⟩
    obtain ⟨r, _, hrh⟩ := List.mem_map.mp hh
    exact hrh ▸ hourOf_lt_24 r.startTime

theorem hourKeys_pairwise (df : DaySeries) : (hourKeys df).Pairwise (· < ·) :=
  (List.pairwise_lt_range 24).filter _

theorem hourKeys_ne_nil {df : DaySeries} (h : df ≠ []) : hourKeys df ≠ [] := by
  cases df with
  | nil => exact absurd rfl h
  | cons r rest =>
    intro hk
    have hm : hourOf r.startTime ∈ hourKeys (r :: rest) :=
      mem_hourKeys.mpr (List.mem_map_of_mem _ (List.mem_cons_self r rest))
    rw [hk] at hm
    exact List.not_mem_nil _ hm

/-! ## Claim theorems -/

/-- C7: for every date (represented by its UTC midnight `m`), the grid
generator returns exactly 48 instants, the first at midnight, the last at
23:30 (minute 1410), each exactly 30 minutes after the previous, strictly
increasing. -/
theorem C7_grid_generator : ∀ m : ℤ,
    (generate_expected_start_times m).length = 48 ∧
    (generate_expected_start_times m).head? = some m ∧
    (generate_expected_start_times m).getLast? = some (m + 1410) ∧
    List.Chain' (fun a b => b = a + 30) (generate_expected_start_times m) ∧
    (generate_expected_start_times m).Pairwise (· < ·) := by
  intro m
  rw [generate_expected_start_times_eq]
  refine ⟨by simp, ?_, ?_, ?_, ?_⟩
  · rw [List.head?_map, show (List.range 48).head? = some 0 from rfl]
    simp
  · rw [List.getLast?_map, show (List.range 48).getLast? = some 47 from rfl]
    norm_num
  · rw [List.chain'_map, show (48 : ℕ) = Nat.succ 47 from rfl,
      List.chain'_range_succ]
    intro k _
    push_cast
    ring
  · rw [List.pairwise_map]
    exact (List.pairwise_lt_range 48).imp (fun hab => by
      have := Int.ofNat_lt.mpr hab
      linarith)

/-- C4: the total imbalance cost is the sum over the series of the
per-period cost (sell price when the volume is positive, buy price
otherwise), and the worked example `[10, -5, 15]` with sell `[100, 200,
150]` and buy `[80, 180, 120]` totals 2350. -/
theorem C4_total_imbalance_cost :
    (∀ df : DaySeries,
      (calculate_total_imbalance_cost df).1 = (df.map spec_per_period_cost).sum) ∧
    (calculate_total_imbalance_cost c4_example).1 = 2350 := by
  constructor
  · intro df
    simp only [calculate_total_imbalance_cost, List.map_map]
    rfl
  · norm_num [calculate_total_imbalance_cost, c4_example, mkRec, dRec]

/-- C3 counterexample: `calculate_total_imbalance_cost` does not leave its
input table unchanged — on a one-record series the returned table carries a
new `ImbalanceCost` column, so it differs from the input. -/
theorem C3_counterexample :
    (calculate_total_imbalance_cost [dRec]).2 ≠ [dRec] := by
  intro h
  have h2 : ((calculate_total_imbalance_cost [dRec]).2).map (fun r => r.imbalanceCost)
      = ([dRec] : DaySeries).map (fun r => r.imbalanceCost) := by rw [h]
  simp [calculate_total_imbalance_cost, dRec] at h2

/-- C3 amended: the analytics computations add derived columns to the
table of the caller, but they leave the seven fields of interest of every
record unchanged (the projection onto those fields is preserved). -/
theorem C3_base_fields_preserved : ∀ df : DaySeries,
    ((calculate_total_imbalance_cost df).2).map baseView = df.map baseView ∧
    ((generate_max_net_abs_imbalance_volume_hour df).2).map baseView = df.map baseView := by
  intro df
  constructor
  · simp only [calculate_total_imbalance_cost, List.map_map]
    rfl
  · simp only [generate_max_net_abs_imbalance_volume_hour, List.map_map]
    rfl

/-- C1: evaluating the reconciler at a date with missing periods whose D−1
fetch returns the absence signal: the source subscripts the `None` without
a check, so the whole operation aborts with a `TypeError` instead of
treating the failed neighbour as contributing zero misplaced periods. -/
theorem C1_yesterday_none_aborts :
    switch_timezone_to_utc 0 [dRec] none (some [])
      = (Except.error "TypeError: NoneType object is not subscriptable", true) := by
  rfl

/-- C10: the summed peak-volume-hour analytic raises on the empty series
(`idxmax` of an empty grouped series), succeeds on every non-empty series,
while the total imbalance cost of the empty series is 0. -/
theorem C10_empty_series_raises :
    (generate_max_net_abs_imbalance_volume_hour ([] : DaySeries)).1
        = Except.error "ValueError: attempt to get argmax of an empty sequence" ∧
    (calculate_total_imbalance_cost ([] : DaySeries)).1 = 0 ∧
    (∀ df : DaySeries, df ≠ [] →
      ∃ p, (generate_max_net_abs_imbalance_volume_hour df).1 = Except.ok p) := by
  refine ⟨rfl, rfl, ?_⟩
  intro df hdf
  have hk := hourKeys_ne_nil hdf
  cases hg : (hourKeys df).map (fun h => (h, hourSum df h)) with
  | nil => exact absurd (List.map_eq_nil_iff.mp hg) hk
  | cons p rest =>
    refine ⟨((pickMax p rest).1, maxVal p.2 (rest.map (fun q : ℕ × ℚ => q.2))), ?_⟩
    show idxmax_max ((hourKeys df).map (fun h => (h, hourSum df h))) = _
    rw [hg]
    rfl

theorem C10_witness :
    ∃ p, (generate_max_net_abs_imbalance_volume_hour [dRec]).1 = Except.ok p :=
  C10_empty_series_raises.2.2 [dRec] (List.cons_ne_nil dRec [])

/-- C5: when the start-time set of the input already equals the expected
grid, reconciliation returns the input unchanged, for any state of the
neighbour sources, and issues no neighbour fetch. -/
theorem C5_idempotent_no_fetch :
    ∀ (m : ℤ) (df : DaySeries) (yf tf : Option DaySeries),
      (∀ t : ℤ, t ∈ df.map (fun r => r.startTime) ↔ t ∈ generate_expected_start_times m) →
      switch_timezone_to_utc m df yf tf = (Except.ok df, false) := by
  intro m df yf tf h
  have hmiss : missing_times m df = [] := by
    rw [missing_times, List.filter_eq_nil_iff]
    intro t ht
    have hm : t ∈ df.map (fun r => r.startTime) := (h t).mpr ht
    simp [hm]
  have hfilt : filtered_data m df = df := by
    rw [filtered_data, List.filter_eq_self]
    intro r hr
    have hm : r.startTime ∈ df.map (fun rr => rr.startTime) := List.mem_map_of_mem _ hr
    simp [(h r.startTime).mp hm]
  rw [switch_timezone_to_utc, hmiss, hfilt]
  simp

theorem full_day_startTimes (m : ℤ) :
    (full_day m).map (fun r => r.startTime) = generate_expected_start_times m := by
  simp [full_day, List.map_map, Function.comp_def]

theorem C5_witness :
    switch_timezone_to_utc 0 (full_day 0) none none = (Except.ok (full_day 0), false) :=
  C5_idempotent_no_fetch 0 (full_day 0) none none
    (fun t => by rw [full_day_startTimes])

/-- C8: on every non-empty series the summed peak-volume-hour analytic
returns an hour of the series (0–23) together with the summed
absolute volume of that hour, which is maximal among all hours of the series, ties
resolved towards the lowest hour; the worked example at 00:00, 01:00,
01:30, 02:00 with volumes `[5, -3, 4, 2]` yields hour 1 with sum 7. -/
theorem C8_peak_summed_hour :
    (∀ df : DaySeries, df ≠ [] →
      ∃ hr v, (generate_max_net_abs_imbalance_volume_hour df).1 = Except.ok (hr, v) ∧
        hr < 24 ∧ hr ∈ df.map (fun r => hourOf r.startTime) ∧ v = hourSum df hr ∧
        (∀ h2 ∈ df.map (fun r => hourOf r.startTime), hourSum df h2 ≤ v) ∧
        (∀ h2 ∈ df.map (fun r => hourOf r.startTime), hourSum df h2 = v → hr ≤ h2)) ∧
    (generate_max_net_abs_imbalance_volume_hour c8_example).1 = Except.ok (1, 7) := by
  constructor
  · intro df hdf
    have hk := hourKeys_ne_nil hdf
    have hpar : ((hourKeys df).map (fun h => (h, hourSum df h))).Pairwise
        (fun p q => p.1 < q.1) := by
      rw [List.pairwise_map]
      exact hourKeys_pairwise df
    have hne : (hourKeys df).map (fun h => (h, hourSum df h)) ≠ [] := by
      simpa using hk
    obtain ⟨k, v, hok, hmem, hle, htie⟩ := idxmax_max_spec _ hne hpar
    obtain ⟨h0, hh0, heq⟩ := List.mem_map.mp hmem
    have hk0 : k = h0 := by
      have := congrArg Prod.fst heq
      simpa using this.symm
    have hv0 : v = hourSum df h0 := by
      have := congrArg Prod.snd heq
      simpa using this.symm
    subst hk0
    refine ⟨k, v, ?_, ?_, ?_, ?_, ?_, ?_⟩
    · show idxmax_max ((hourKeys df).map (fun h => (h, hourSum df h))) = _
      exact hok
    · exact List.mem_range.mp (List.mem_filter.mp hh0).1
    · exact mem_hourKeys.mp hh0
    · exact hv0
    · intro h2 hh2
      exact hle (h2, hourSum df h2)
        (List.mem_map_of_mem _ (mem_hourKeys.mpr hh2))
    · intro h2 hh2 hs
      exact htie (h2, hourSum df h2)
        (List.mem_map_of_mem _ (mem_hourKeys.mpr hh2)) hs
  · with_unfolding_all rfl

theorem C8_witness :
    ∃ hr v, (generate_max_net_abs_imbalance_volume_hour c8_example).1 = Except.ok (hr, v) ∧
      hr < 24 ∧ hr ∈ c8_example.map (fun r => hourOf r.startTime) ∧
      v = hourSum c8_example hr ∧
      (∀ h2 ∈ c8_example.map (fun r => hourOf r.startTime), hourSum c8_example h2 ≤ v) ∧
      (∀ h2 ∈ c8_example.map (fun r => hourOf r.startTime), hourSum c8_example h2 = v → hr ≤ h2) :=
  C8_peak_summed_hour.1 c8_example (List.cons_ne_nil _ _)

/-! ## Reconciler output decomposition (for C6) -/

theorem filter_startTime_mem {l : DaySeries} {ts : List ℤ} {r : SettlementRecord}
    (hr : r ∈ l.filter (fun x => x.startTime ∈ ts)) : r.startTime ∈ ts := by
  have h2 := (List.mem_filter.mp hr).2
  simpa using h2

/-- Every successful `add_missing_settlement_periods` output is: some
misplaced records of the D−1 fetch, then the primary records, then some
misplaced records of the D+1 fetch — each misplaced record carrying a
missing start time, and each side a (filtered) sublist of its fetch. -/
theorem add_missing_ok_decomp {yf tf : Option DaySeries} {F : DaySeries}
    {M : List ℤ} {out : DaySeries}
    (h : add_missing_settlement_periods yf F M tf = Except.ok out) :
    ∃ ya ta : DaySeries,
      out = ya ++ F ++ ta ∧
      (∀ r ∈ ya, r.startTime ∈ M) ∧ (∀ r ∈ ta, r.startTime ∈ M) ∧
      ((ya.map (fun r => r.startTime)).Sublist (seriesStarts yf)) ∧
      ((ta.map (fun r => r.startTime)).Sublist (seriesStarts tf)) := by
  cases yf with
  | none => exact absurd h (by simp [add_missing_settlement_periods])
  | some ydf =>
    cases tf with
    | some tdf =>
      simp only [add_missing_settlement_periods] at h
      by_cases hY : 0 < (ydf.filter (fun r => r.startTime ∈ M)).length
      · rw [if_pos hY] at h
        cases h
        refine ⟨_, _, rfl, ?_, ?_, ?_, ?_⟩
        · intro r hr
          exact filter_startTime_mem hr
        · intro r hr
          exact filter_startTime_mem hr
        · exact List.Sublist.map _ (List.filter_sublist ydf)
        · exact List.Sublist.map _ (List.filter_sublist tdf)
      · rw [if_neg hY] at h
        cases h
        refine ⟨[], tdf.filter (fun r => r.startTime ∈ M), by simp, ?_, ?_,
          List.nil_sublist _, ?_⟩
        · intro r hr
          exact absurd hr (List.not_mem_nil r)
        · intro r hr
          exact filter_startTime_mem hr
        · exact List.Sublist.map _ (List.filter_sublist tdf)
    | none =>
      simp only [add_missing_settlement_periods] at h
      by_cases hY : 0 < (ydf.filter (fun r => r.startTime ∈ M)).length
      · rw [if_pos hY] at h
        cases h
        refine ⟨ydf.filter (fun r => r.startTime ∈ M), [], by simp, ?_, ?_, ?_,
          List.nil_sublist _⟩
        · intro r hr
          exact filter_startTime_mem hr
        · intro r hr
          exact absurd hr (List.not_mem_nil r)
        · exact List.Sublist.map _ (List.filter_sublist ydf)
      · rw [if_neg hY] at h
        cases h
        refine ⟨[], [], by simp, ?_, ?_, List.nil_sublist _, List.nil_sublist _⟩
        · intro r hr
          exact absurd hr (List.not_mem_nil r)
        · intro r hr
          exact absurd hr (List.not_mem_nil r)

theorem switch_fst (m : ℤ) (df : DaySeries) (yf tf : Option DaySeries) :
    (switch_timezone_to_utc m df yf tf).1
      = if 0 < (missing_times m df).length
        then add_missing_settlement_periods yf (filtered_data m df) (missing_times m df) tf
        else Except.ok (filtered_data m df) := by
  rw [switch_timezone_to_utc]
  by_cases hM : 0 < (missing_times m df).length
  · rw [if_pos hM, if_pos hM]
  · rw [if_neg hM, if_neg hM]

/-- Decomposition of every successful reconciler output. -/
theorem switch_ok_decomp {m : ℤ} {df : DaySeries} {yf tf : Option DaySeries}
    {out : DaySeries}
    (h : (switch_timezone_to_utc m df yf tf).1 = Except.ok out) :
    ∃ ya ta : DaySeries,
      out = ya ++ filtered_data m df ++ ta ∧
      (∀ r ∈ ya, r.startTime ∈ missing_times m df) ∧
      (∀ r ∈ ta, r.startTime ∈ missing_times m df) ∧
      ((ya.map (fun r => r.startTime)).Sublist (seriesStarts yf)) ∧
      ((ta.map (fun r => r.startTime)).Sublist (seriesStarts tf)) := by
  rw [switch_fst] at h
  by_cases hM : 0 < (missing_times m df).length
  · rw [if_pos hM] at h
    exact add_missing_ok_decomp h
  · rw [if_neg hM] at h
    cases h
    refine ⟨[], [], by simp, ?_, ?_, List.nil_sublist _, List.nil_sublist _⟩
    · intro r hr
      exact absurd hr (List.not_mem_nil r)
    · intro r hr
      exact absurd hr (List.not_mem_nil r)

theorem missing_times_mem {m : ℤ} {df : DaySeries} {t : ℤ} :
    t ∈ missing_times m df ↔
      t ∈ generate_expected_start_times m ∧ ¬ t ∈ df.map (fun r => r.startTime) := by
  rw [missing_times]
  simp [List.mem_filter]

/-- C6 counterexample: a primary batch with a duplicated start time makes
the reconciler output that start time twice — the no-duplicates half of the
claim fails for arbitrary batches. -/
theorem C6_counterexample :
    (switch_timezone_to_utc 0 [dRec, dRec] (some []) (some [])).1
        = Except.ok [dRec, dRec] ∧
    ¬ (([dRec, dRec] : DaySeries).map (fun r => r.startTime)).Nodup := by
  constructor
  · rfl
  · decide

/-- C6 amended: every start time of a reconciled series lies on the
expected grid, for arbitrary batches; and the series has no duplicate
start times provided the primary batch has none and the two neighbour
fetches have none and do not overlap each other. -/
theorem C6_reconciler_grid_invariant :
    (∀ (m : ℤ) (df : DaySeries) (yf tf : Option DaySeries) (out : DaySeries),
      (switch_timezone_to_utc m df yf tf).1 = Except.ok out →
      ∀ r ∈ out, r.startTime ∈ generate_expected_start_times m) ∧
    (∀ (m : ℤ) (df : DaySeries) (yf tf : Option DaySeries) (out : DaySeries),
      (df.map (fun r => r.startTime)).Nodup →
      (seriesStarts yf).Nodup →
      (seriesStarts tf).Nodup →
      (∀ t ∈ seriesStarts yf, ¬ t ∈ seriesStarts tf) →
      (switch_timezone_to_utc m df yf tf).1 = Except.ok out →
      (out.map (fun r => r.startTime)).Nodup) := by
  constructor
  · intro m df yf tf out h r hr
    obtain ⟨ya, ta, hout, hya, hta, _, _⟩ := switch_ok_decomp h
    rw [hout] at hr
    rcases List.mem_append.mp hr with hr | hr
    · rcases List.mem_append.mp hr with hr | hr
      · exact (missing_times_mem.mp (hya r hr)).1
      · rw [filtered_data] at hr
        exact filter_startTime_mem hr
    · exact (missing_times_mem.mp (hta r hr)).1
  · intro m df yf tf out hdf hyf htf hdisj h
    obtain ⟨ya, ta, hout, hya, hta, hys, hts⟩ := switch_ok_decomp h
    subst hout
    rw [List.map_append, List.map_append]
    have hFsub : ((filtered_data m df).map (fun r => r.startTime)).Sublist
        (df.map (fun r => r.startTime)) := by
      rw [filtered_data]
      exact List.Sublist.map _ (List.filter_sublist df)
    have hFnodup := hdf.sublist hFsub
    have hyanodup := hyf.sublist hys
    have htanodup := htf.sublist hts
    have hyaM : ∀ t ∈ ya.map (fun r => r.startTime), t ∈ missing_times m df := by
      intro t ht
      obtain ⟨r, hr, hrt⟩ := List.mem_map.mp ht
      exact hrt ▸ hya r hr
    have htaM : ∀ t ∈ ta.map (fun r => r.startTime), t ∈ missing_times m df := by
      intro t ht
      obtain ⟨r, hr, hrt⟩ := List.mem_map.mp ht
      exact hrt ▸ hta r hr
    have hdisj1 : (ya.map (fun r => r.startTime)).Disjoint
        ((filtered_data m df).map (fun r => r.startTime)) := by
      intro t hty htF
      exact (missing_times_mem.mp (hyaM t hty)).2 (hFsub.subset htF)
    have hdisj2 : ((ya.map (fun r => r.startTime))
        ++ (filtered_data m df).map (fun r => r.startTime)).Disjoint
        (ta.map (fun r => r.startTime)) := by
      intro t ht hta2
      rcases List.mem_append.mp ht with ht | ht
      · exact hdisj t (hys.subset ht) (hts.subset hta2)
      · exact (missing_times_mem.mp (htaM t hta2)).2 (hFsub.subset ht)
    exact List.nodup_append.mpr
      ⟨List.nodup_append.mpr ⟨hyanodup, hFnodup, hdisj1⟩, htanodup, hdisj2⟩

theorem C6_witness :
    (0 : ℤ) ∈ generate_expected_start_times 0 ∧
    (([dRec] : DaySeries).map (fun r => r.startTime)).Nodup :=
  ⟨C6_reconciler_grid_invariant.1 0 [dRec] (some []) (some []) [dRec] rfl dRec
      (List.mem_singleton.mpr rfl),
   C6_reconciler_grid_invariant.2 0 [dRec] (some []) (some []) [dRec]
      (by decide) (by decide) (by decide) (by simp [seriesStarts]) rfl⟩

/-! ## Peak-volume-slot hour (C2) -/

theorem vals_getD (df : DaySeries) (i : ℕ) (hi : i < df.length) :
    (df.map (fun r => |r.netImbalanceVolume|)).getD i 0
      = |(df.getD i dRec).netImbalanceVolume| := by
  simp [List.getD_eq_getElem?_getD, List.getElem?_map, List.getElem?_eq_getElem hi]

theorem generate_max_abs_eq_ok {df : DaySeries} {k : ℕ} {v : ℚ}
    (h : idxmax_max ((List.range df.length).map
        (fun i => (i, (df.map (fun r => |r.netImbalanceVolume|)).getD i 0)))
      = Except.ok (k, v)) :
    generate_max_abs_imbalance_volume_period_hour (some df)
      = Except.ok (hourOf (df.getD k dRec).startTime, v) := by
  simp only [generate_max_abs_imbalance_volume_period_hour]
  rw [h]

/-- C2: as defined, the peak-slot function reads the table from the
enclosing global scope (its docstring documents a `df` parameter the
signature lacks), where no `df` exists — every call fails with `NameError`.
Its body, applied to a non-empty table, would return the hour of the first
record attaining the maximal absolute net imbalance volume, with that
volume. -/
theorem C2_peak_slot_hour :
    generate_max_abs_imbalance_volume_period_hour module_global_df
        = Except.error "NameError: name df is not defined" ∧
    (∀ df : DaySeries, df ≠ [] →
      ∃ hr v, generate_max_abs_imbalance_volume_period_hour (some df) = Except.ok (hr, v) ∧
        ∃ k, k < df.length ∧ v = |(df.getD k dRec).netImbalanceVolume| ∧
          hr = hourOf (df.getD k dRec).startTime ∧
          (∀ j, j < df.length → |(df.getD j dRec).netImbalanceVolume| ≤ v) ∧
          (∀ j, j < k → |(df.getD j dRec).netImbalanceVolume| < v)) := by
  constructor
  · rfl
  · intro df hdf
    have hne : ((List.range df.length).map
        (fun i => (i, (df.map (fun r => |r.netImbalanceVolume|)).getD i 0))) ≠ [] := by
      intro h0
      have h1 := List.map_eq_nil_iff.mp h0
      rw [List.range_eq_nil] at h1
      exact hdf (List.length_eq_zero.mp h1)
    have hpar : ((List.range df.length).map
        (fun i => (i, (df.map (fun r => |r.netImbalanceVolume|)).getD i 0))).Pairwise
        (fun p q => p.1 < q.1) := by
      rw [List.pairwise_map]
      exact List.pairwise_lt_range _
    obtain ⟨k, v, hok, hmem, hle, htie⟩ := idxmax_max_spec _ hne hpar
    obtain ⟨i, hiR, heq⟩ := List.mem_map.mp hmem
    have hk : k = i := by
      have h2 := congrArg Prod.fst heq
      simpa using h2.symm
    have hv : v = (df.map (fun r => |r.netImbalanceVolume|)).getD i 0 := by
      have h2 := congrArg Prod.snd heq
      simpa using h2.symm
    have hiL : i < df.length := List.mem_range.mp hiR
    subst hk
    refine ⟨hourOf (df.getD k dRec).startTime, v, generate_max_abs_eq_ok hok, k, hiL,
      ?_, rfl, ?_, ?_⟩
    · rw [hv, vals_getD df k hiL]
    · intro j hj
      have hjmem : (j, (df.map (fun r => |r.netImbalanceVolume|)).getD j 0)
          ∈ (List.range df.length).map
            (fun i => (i, (df.map (fun r => |r.netImbalanceVolume|)).getD i 0)) :=
        List.mem_map_of_mem _ (List.mem_range.mpr hj)
      have h3 := hle _ hjmem
      rw [vals_getD df j hj] at h3
      exact h3
    · intro j hji
      have hjL : j < df.length := lt_trans hji hiL
      rw [← vals_getD df j hjL]
      have hjmem : (j, (df.map (fun r => |r.netImbalanceVolume|)).getD j 0)
          ∈ (List.range df.length).map
            (fun i => (i, (df.map (fun r => |r.netImbalanceVolume|)).getD i 0)) :=
        List.mem_map_of_mem _ (List.mem_range.mpr hjL)
      refine lt_of_le_of_ne (hle _ hjmem) ?_
      intro heq2
      have hik := htie _ hjmem heq2
      exact absurd hik (not_le_of_lt hji)

theorem C2_witness :
    ∃ hr v, generate_max_abs_imbalance_volume_period_hour (some c8_example)
        = Except.ok (hr, v) ∧
      ∃ k, k < c8_example.length ∧ v = |(c8_example.getD k dRec).netImbalanceVolume| ∧
        hr = hourOf (c8_example.getD k dRec).startTime ∧
        (∀ j, j < c8_example.length → |(c8_example.getD j dRec).netImbalanceVolume| ≤ v) ∧
        (∀ j, j < k → |(c8_example.getD j dRec).netImbalanceVolume| < v) :=
  C2_peak_slot_hour.2 c8_example (List.cons_ne_nil _ _)

/-! ## Normalizer lemmas (C9) -/

theorem select_columns_none (df : RawDF) (cols : List String) :
    select_columns df cols = none ↔ ∃ c ∈ cols, lookupCol df c = none := by
  induction cols with
  | nil => simp [select_columns]
  | cons c cs ih =>
    cases hl : lookupCol df c with
    | none =>
      simp only [select_columns, hl]
      constructor
      · intro _
        exact ⟨c, List.mem_cons_self c cs, hl⟩
      · intro _
        trivial
    | some vs =>
      cases hs : select_columns df cs with
      | none =>
        simp only [select_columns, hl, hs]
        constructor
        · intro _
          obtain ⟨c2, hc2, hl2⟩ := ih.mp hs
          exact ⟨c2, List.mem_cons_of_mem c hc2, hl2⟩
        · intro _
          trivial
      | some rest =>
        simp only [select_columns, hl, hs]
        constructor
        · intro h0
          exact absurd h0 (by simp)
        · rintro ⟨c2, hc2, hl2⟩
          exfalso
          rcases List.mem_cons.mp hc2 with hc2 | hc2
          · rw [hc2] at hl2
            rw [hl] at hl2
            cases hl2
          · have h3 : select_columns df cs = none := ih.mpr ⟨c2, hc2, hl2⟩
            rw [h3] at hs
            cases hs

theorem select_columns_some (df : RawDF) (cols : List String) (out : RawDF)
    (h : select_columns df cols = some out) :
    out.map (fun p => p.1) = cols ∧
    ∀ c vs, (c, vs) ∈ out → lookupCol df c = some vs := by
  induction cols generalizing out with
  | nil =>
    simp only [select_columns] at h
    cases h
    simp
  | cons c cs ih =>
    cases hl : lookupCol df c with
    | none =>
      simp only [select_columns, hl] at h
      exact Option.noConfusion h
    | some vs =>
      cases hs : select_columns df cs with
      | none =>
        simp only [select_columns, hl, hs] at h
        exact Option.noConfusion h
      | some rest =>
        simp only [select_columns, hl, hs] at h
        cases h
        obtain ⟨h1, h2⟩ := ih rest hs
        constructor
        · simp [h1]
        · intro c2 vs2 hm
          rcases List.mem_cons.mp hm with hm | hm
          · have hc := congrArg Prod.fst hm
            have hv2 := congrArg Prod.snd hm
            simp only at hc hv2
            rw [hc, hv2]
            exact hl
          · exact h2 c2 vs2 hm

theorem select_columns_all_present (df : RawDF) (cols : List String)
    (h : ∀ c ∈ cols, (lookupCol df c).isSome) :
    ∃ out, select_columns df cols = some out := by
  induction cols with
  | nil => exact ⟨[], rfl⟩
  | cons c cs ih =>
    obtain ⟨vs, hvs⟩ := Option.isSome_iff_exists.mp (h c (List.mem_cons_self c cs))
    obtain ⟨rest, hrest⟩ := ih (fun c2 hc2 => h c2 (List.mem_cons_of_mem c hc2))
    refine ⟨(c, vs) :: rest, ?_⟩
    simp only [select_columns, hvs, hrest]

theorem transform_date_fst (parse : String → ℤ) (df : RawDF) :
    (transform_date_columns_to_datetime parse df).map (fun p => p.1)
      = df.map (fun p => p.1) := by
  simp only [transform_date_columns_to_datetime, List.map_map]
  apply List.map_congr_left
  intro p _
  by_cases hp : p.1 ∈ date_columns
  · simp [hp]
  · simp [hp]

theorem transform_date_mem (parse : String → ℤ) (df : RawDF) {c : String}
    {vs : List CellValue}
    (h : (c, vs) ∈ transform_date_columns_to_datetime parse df) :
    ∃ vs0, (c, vs0) ∈ df ∧
      vs = (if c ∈ date_columns then vs0.map (to_datetime parse) else vs0) := by
  obtain ⟨p, hp, heq⟩ := List.mem_map.mp h
  by_cases hc : p.1 ∈ date_columns
  · rw [if_pos hc] at heq
    have h1 := congrArg Prod.fst heq
    have h2 := congrArg Prod.snd heq
    simp only at h1 h2
    refine ⟨p.2, ?_, ?_⟩
    · rw [← h1]
      simpa using hp
    · rw [← h2, if_pos (h1 ▸ hc)]
  · rw [if_neg hc] at heq
    have h1 := congrArg Prod.fst heq
    have h2 := congrArg Prod.snd heq
    simp only at h1 h2
    refine ⟨p.2, ?_, ?_⟩
    · rw [← h1]
      simpa using hp
    · rw [if_neg (h1 ▸ hc)]
      exact h2.symm

/-- C9: the normalizer fails (the pandas `KeyError` playing the role of
the SchemaError) whenever one of the seven required columns is absent, and
on a batch holding all seven it returns exactly those seven columns in
order, each the original column with the three date columns parsed —
extra columns dropped, nothing truncated. -/
theorem C9_schema_enforcement : ∀ (parse : String → ℤ) (df : RawDF),
    ((∃ c ∈ columns_of_interest, lookupCol df c = none) →
      transform_data_from_api parse df = Except.error "KeyError") ∧
    ((∀ c ∈ columns_of_interest, (lookupCol df c).isSome) →
      ∃ out, transform_data_from_api parse df = Except.ok out ∧
        out.map (fun p => p.1) = columns_of_interest ∧
        ∀ c vs, (c, vs) ∈ out → ∃ vs0, lookupCol df c = some vs0 ∧
          vs = (if c ∈ date_columns then vs0.map (to_datetime parse) else vs0)) := by
  intro parse df
  constructor
  · intro hmissing
    have h0 : select_columns df columns_of_interest = none :=
      (select_columns_none df columns_of_interest).mpr hmissing
    simp only [transform_data_from_api, h0]
  · intro hall
    obtain ⟨sel, hsel⟩ := select_columns_all_present df columns_of_interest hall
    obtain ⟨h1, h2⟩ := select_columns_some df columns_of_interest sel hsel
    refine ⟨transform_date_columns_to_datetime parse sel, ?_, ?_, ?_⟩
    · simp only [transform_data_from_api, hsel]
    · rw [transform_date_fst, h1]
    · intro c vs hm
      obtain ⟨vs0, hv0, hveq⟩ := transform_date_mem parse sel hm
      exact ⟨vs0, h2 c vs0 hv0, hveq⟩

theorem C9_witness :
    transform_data_from_api (fun _ => 0) bad_batch = Except.error "KeyError" ∧
    ∃ out, transform_data_from_api (fun _ => 0) good_batch = Except.ok out ∧
      out.map (fun p => p.1) = columns_of_interest ∧
      ∀ c vs, (c, vs) ∈ out → ∃ vs0, lookupCol good_batch c = some vs0 ∧
        vs = (if c ∈ date_columns then vs0.map (to_datetime (fun _ => 0)) else vs0) :=
  ⟨(C9_schema_enforcement (fun _ => 0) bad_batch).1
      ⟨"createdDateTime", by decide, by rfl⟩,
   (C9_schema_enforcement (fun _ => 0) good_batch).2 (by decide)⟩
